import Mathlib

/-!
Verification of the vscode-codesonar client sources.

The development shallow-embeds the TypeScript sources of the repository:
strings are modelled as Lean String or List Char, optional values as
Option, promise resolution versus rejection as Except, and the effects a
function performs against the editor secret store as an explicit effect
trace. Definitions follow the structure of the TypeScript functions they
embed; a definition whose doc comment starts "Modelled from the spec:"
stands for repository code that is not among the given source files and is
written from the specification text instead.
-/

/- ===================== common_utils ===================== -/

/-- Attempt to match the regular expression /\?%*:|"<> at the head of the
character list. The TypeScript source builds this regular expression with
new RegExp("/\\?%*:|\"<>", "g"): the alternation splits it into the branch
slash, question mark, a run of percent signs, colon, and the branch
quote, less-than, greater-than. Returns the length of the match. -/
def matchInvalidAt : List Char → Option Nat
  | '/' :: '?' :: rest =>
    let k := (rest.takeWhile (fun c => c == '%')).length
    match rest.drop k with
    | ':' :: _ => some (k + 3)
    | _ => none
  | '"' :: '<' :: '>' :: _ => some 3
  | _ => none

/-- Global regular-expression replacement: scan left to right, replacing
each match of matchInvalidAt by the replacement text, as the JavaScript
String.replace method does with a global regular expression. The fuel
argument is the scanned length and only serves termination. -/
def replaceScan (repl : List Char) : Nat → List Char → List Char
  | _, [] => []
  | 0, l => l
  | fuel + 1, c :: cs =>
    match matchInvalidAt (c :: cs) with
    | some n => repl ++ replaceScan repl fuel ((c :: cs).drop n)
    | none => c :: replaceScan repl fuel cs

/-- Embeds replaceInvalidFileNameChars of common_utils: replace every match
of the regular expression /\?%*:|"<> in s by the replacement string. -/
def replaceInvalidFileNameChars (s : String) (repl : String) : String :=
  ⟨replaceScan repl.data s.data.length s.data⟩

/-- Per-chunk push decision of readTextStream (common_utils): given the
current chunk, the optional maximum length and the output length so far,
decide what part of the chunk to keep. -/
def pushChunkOf (chunk : List Char) (maxLength : Option Nat) (outLength : Nat) :
    Option (List Char) :=
  match maxLength with
  | none => some chunk
  | some m =>
    if m ≤ outLength then none
    else if chunk.length + outLength < m then some chunk
    else some (chunk.take (m - outLength))

/-- Folds the data-event handler of readTextStream over the list of chunks
the stream delivers, accumulating the pushed chunks. A pushed chunk that is
empty is skipped, as the falsy test if (pushChunk) does in the source. -/
def collectChunks : List (List Char) → Option Nat → Nat → List (List Char)
  | [], _, _ => []
  | chunk :: rest, maxLength, outLength =>
    match pushChunkOf chunk maxLength outLength with
    | none => collectChunks rest maxLength outLength
    | some p =>
      if p.isEmpty then collectChunks rest maxLength outLength
      else p :: collectChunks rest maxLength (outLength + p.length)

/-- Embeds readTextStream of common_utils on a stream that delivers the
given list of string chunks and then ends: the resolved text is the
concatenation of the collected chunks. -/
def readTextStream (chunks : List (List Char)) (maxLength : Option Nat) : List Char :=
  (collectChunks chunks maxLength 0).flatten

/- ===================== sarif_download ===================== -/

/-- Embeds the CSHubAddress value used by sarif_download: protocol,
hostname, optional port. -/
structure CSHubAddress where
  protocol : Option String
  hostname : String
  port : Option Nat
deriving DecidableEq

/-- Embeds formatUserHubAddress of sarif_download. The TypeScript template
literal is username followed by the text @{$hubAddress.hostname}: because
the brace group is written {$...} rather than ${...}, it is literal text,
not an interpolation, and the function reproduces it verbatim. -/
def formatUserHubAddress (hubAddress : CSHubAddress) (username : String) : String :=
  let s1 : String := username ++ "@\x7b$hubAddress.hostname\x7d"
  let s2 : String :=
    match hubAddress.protocol with
    | some protocol => protocol ++ "://" ++ s1
    | none => s1
  match hubAddress.port with
  | some port => s2 ++ ":" ++ toString port
  | none => s2

/-- Embeds the password-storage key derivation of sarif_download. -/
def passwordStorageKeyOf (hubAddress : CSHubAddress) (username : String) : String :=
  "codesonar:hubpasswd::" ++ formatUserHubAddress hubAddress username

/-- Splits a character list at the first colon, when one occurs. -/
def breakOnColon : List Char → List Char × Option (List Char)
  | [] => ([], none)
  | c :: rest =>
    if c = ':' then ([], some rest)
    else
      let (h, p) := breakOnColon rest
      (c :: h, p)

/-- Parses a decimal port number. -/
def charsToNat? (l : List Char) : Option Nat :=
  if l ≠ [] ∧ l.all (fun c => c.isDigit) then
    some (l.foldl (fun n c => n * 10 + (c.toNat - 48)) 0)
  else none

/-- Modelled from the spec: the CSHubAddress constructor of module
cs_hub_client is not among the given sources. Per the spec it parses
host:port or scheme://host:port into protocol, hostname and optional
port, protocol left unset when no scheme prefix is given. -/
def parseCSHubAddress (s : String) : CSHubAddress :=
  let (protocol, rest) :=
    if ("http://".data).isPrefixOf s.data then (some "http", s.data.drop 7)
    else if ("https://".data).isPrefixOf s.data then (some "https", s.data.drop 8)
    else ((none : Option String), s.data)
  let (hostChars, portChars) := breakOnColon rest
  match portChars with
  | none => ⟨protocol, ⟨hostChars⟩, none⟩
  | some p => ⟨protocol, ⟨hostChars⟩, charsToNat? p⟩

/-- JavaScript truthiness of an optional string: undefined and the empty
string are falsy. -/
def truthy : Option String → Bool
  | none => false
  | some s => s ≠ ""

/-- An operation performed against the editor secret storage or the user
interface during credential handling. -/
inductive SecretEffect
  | delete (key : String)
  | get (key : String)
  | prompt (message : String)
  | store (key : String) (value : String)
deriving DecidableEq

/-- Embeds CSHubClientConnectionOptions as executeCodeSonarSarifDownload
fills it: the hubpasswd field of the source is a closure capturing the
storage key, the user name and the address, modelled as that
captured triple. -/
structure CSHubClientConnectionOptions where
  cafile : Option String := none
  hubuser : Option String := none
  hubcert : Option String := none
  hubkey : Option String := none
  hubpwfile : Option String := none
  hubpasswd : Option (String × String × String) := none
deriving DecidableEq

/-- Configuration inputs of executeCodeSonarSarifDownload after the
settings and input boxes have been read (sarif_download lines 89 to 160). -/
structure SarifDownloadConfig where
  hubAddressString : Option String := none
  hubCAFilePath : Option String := none
  hubUserName : Option String := none
  hubUserPasswordFilePath : Option String := none
  hubUserCertFilePath : Option String := none
  hubUserCertKeyFilePath : Option String := none

/-- Embeds the certificate-key default file name derivation of
executeCodeSonarSarifDownload (sarif_download lines 176 to 193): when no
key path is given, replace a .cert suffix by .key, else replace a
.cert.pem suffix by .key.pem, else append .key. -/
def deriveHubUserCertKeyFilePath (certFilePath : List Char)
    (keyFilePath : Option (List Char)) : List Char :=
  let derived : Option (List Char) :=
    match keyFilePath with
    | some k => some k
    | none =>
      if (".cert".data).isSuffixOf certFilePath then
        some (certFilePath.take (certFilePath.length - ".cert".data.length)
              ++ ".key".data)
      else if (".cert.pem".data).isSuffixOf certFilePath then
        some (certFilePath.take (certFilePath.length - ".cert.pem".data.length)
              ++ ".key.pem".data)
      else none
  match derived with
  | some k => k
  | none => certFilePath ++ ".key".data

/-- Embeds the option-filling block of executeCodeSonarSarifDownload
(sarif_download lines 161 to 241): returns the connection options together
with the trace of secret-storage operations performed while configuring.
resolvePath embeds the resolveFilePath closure over the workspace folder. -/
def configureHubClientOptions (resolvePath : String → String)
    (cfg : SarifDownloadConfig) :
    CSHubClientConnectionOptions × List SecretEffect :=
  let hubAddressObject : Option CSHubAddress :=
    if truthy cfg.hubAddressString then
      some (parseCSHubAddress (cfg.hubAddressString.getD ""))
    else none
  let passwordStorageKey : Option String :=
    match hubAddressObject with
    | some addressObject =>
      if truthy cfg.hubUserName then
        some (passwordStorageKeyOf addressObject (cfg.hubUserName.getD ""))
      else none
    | none => none
  let opts0 : CSHubClientConnectionOptions := {}
  let opts1 :=
    if truthy cfg.hubCAFilePath then
      { opts0 with cafile := cfg.hubCAFilePath.map resolvePath }
    else opts0
  let opts2 :=
    if truthy cfg.hubUserName then { opts1 with hubuser := cfg.hubUserName }
    else opts1
  if truthy cfg.hubUserCertFilePath then
    let certFilePath := (cfg.hubUserCertFilePath.getD "").data
    let keyFilePath :=
      deriveHubUserCertKeyFilePath certFilePath
        (cfg.hubUserCertKeyFilePath.map String.data)
    ({ opts2 with
        hubcert := some (resolvePath ⟨certFilePath⟩),
        hubkey := some (resolvePath ⟨keyFilePath⟩) }, [])
  else if truthy cfg.hubUserPasswordFilePath then
    ({ opts2 with
        hubpwfile := cfg.hubUserPasswordFilePath.map resolvePath },
     match passwordStorageKey with
     | some key => [SecretEffect.delete key]
     | none => [])
  else if truthy cfg.hubAddressString && truthy cfg.hubUserName
      && truthy passwordStorageKey then
    ({ opts2 with
        hubpasswd := some (passwordStorageKey.getD "",
                           cfg.hubUserName.getD "",
                           cfg.hubAddressString.getD "") }, [])
  else (opts2, [])

/-- Connection options produced by the configuration block. -/
def configuredOptions (resolvePath : String → String) (cfg : SarifDownloadConfig) :
    CSHubClientConnectionOptions :=
  (configureHubClientOptions resolvePath cfg).1

/-- Secret-storage operations performed by the configuration block itself. -/
def configureEffects (resolvePath : String → String) (cfg : SarifDownloadConfig) :
    List SecretEffect :=
  (configureHubClientOptions resolvePath cfg).2

/-- Prompt text of the interactive password input box
(sarif_download line 224). -/
def interactivePromptText (username address : String) : String :=
  "Enter password for CodeSonar hub user \x27" ++ username ++ "\x27 at \x27"
  ++ address ++ "\x27"

/-- Embeds the interactive password provider closure installed by
executeCodeSonarSarifDownload (sarif_download lines 215 to 240).
Arguments storedPassword and userInput stand for the secret-storage lookup
result and the input-box outcome (undefined meaning the user cancelled).
Returns the settled promise value together with the trace of operations
the closure performed, in order. -/
def interactivePasswordProvider (key username address : String)
    (storedPassword : Option String) (userInput : Option String) :
    Except String String × List SecretEffect :=
  match storedPassword with
  | some password => (Except.ok password, [SecretEffect.get key])
  | none =>
    match userInput with
    | none =>
      (Except.error "User cancelled password input.",
       [SecretEffect.get key,
        SecretEffect.prompt (interactivePromptText username address)])
    | some inputValue =>
      (Except.ok inputValue,
       [SecretEffect.get key,
        SecretEffect.prompt (interactivePromptText username address),
        SecretEffect.store key inputValue])

/- ===================== hub sign-in ===================== -/

/-- Outcome of one sign-in attempt as the server and the credential
resolution determine it: the hub confirms the identity, the hub declines
the credentials (HTTP 403 Forbidden), the server cannot be reached, or the
credential resolution itself failed (cancelled prompt, missing file). -/
inductive HubSignInOutcome
  | success
  | forbidden
  | connectError (message : String)
  | resolutionError (message : String)
deriving DecidableEq

/-- Modelled from the spec: CSHubClient.signIn of module cs_hub_client is
not among the given sources. Per spec section 4.4 and the caller comments
in sarif_download lines 247 to 249, the returned promise resolves normally
with a result carrying the rejection when the hub declines the
credentials, resolves with no message on success, and rejects (raises)
on transport failure or credential-resolution failure. The resolved value
is the message shape seen by cs_hub_client_exec line 109. -/
def signInResolvedMessage : HubSignInOutcome → Except String (Option String)
  | HubSignInOutcome.success => Except.ok none
  | HubSignInOutcome.forbidden => Except.ok (some "Access forbidden")
  | HubSignInOutcome.connectError message => Except.error message
  | HubSignInOutcome.resolutionError message => Except.error message

/-- Boolean shape of the same sign-in result as sarif_download line 250
consumes it: false when the hub returned HTTP 403 Forbidden, true on
success, a rejected promise otherwise. -/
def signInResolvedBool (outcome : HubSignInOutcome) : Except String Bool :=
  match signInResolvedMessage outcome with
  | Except.ok none => Except.ok true
  | Except.ok (some _) => Except.ok false
  | Except.error e => Except.error e

/-- Embeds the sign-in block of executeCodeSonarSarifDownload
(sarif_download lines 245 to 270): await signIn; a false result raises
Access forbidden inside the try; the catch rewraps any error with the
header; the finally clause deletes the stored password when sign-in did
not succeed. Returns the block outcome and the secret-storage operations
it performed. -/
def executeSignInBlock (outcome : HubSignInOutcome)
    (passwordStorageKey : Option String) :
    Except String Unit × List SecretEffect :=
  let messageHeader := "CodeSonar hub sign-in error"
  let finallyEffects : List SecretEffect :=
    match passwordStorageKey with
    | some key => [SecretEffect.delete key]
    | none => []
  match signInResolvedBool outcome with
  | Except.ok true => (Except.ok (), [])
  | Except.ok false =>
    (Except.error (messageHeader ++ ": " ++ "Access forbidden"), finallyEffects)
  | Except.error e =>
    (Except.error
      (if e = "" then messageHeader else messageHeader ++ ": " ++ e),
     finallyEffects)

/- ===================== certificate and key pair ===================== -/

/-- Modelled from the spec: the key-to-certificate direction of the
derivation CSHubUserKey performs (module csonar_ex, not among the given
sources). Per spec section 4.2 the missing member of the pair is derived
by stripping the known suffix and substituting the corresponding one,
falling back to appending the missing suffix. -/
def deriveHubUserCertFilePathFromKey (keyFilePath : List Char) : List Char :=
  if (".key".data).isSuffixOf keyFilePath then
    keyFilePath.take (keyFilePath.length - ".key".data.length) ++ ".cert".data
  else if (".key.pem".data).isSuffixOf keyFilePath then
    keyFilePath.take (keyFilePath.length - ".key.pem".data.length)
      ++ ".cert.pem".data
  else keyFilePath ++ ".cert".data

/-- Certificate and key file path pair held by CSHubUserKey. -/
structure CSHubUserKey where
  certFilePath : List Char
  keyFilePath : List Char
deriving DecidableEq

/-- Modelled from the spec: CSHubUserKey (module csonar_ex, not among the
given sources) derives the missing member of the certificate and key pair
from the one that is given (spec section 4.2). -/
def csHubUserKeyOf : Option (List Char) → Option (List Char) → CSHubUserKey
  | some cert, some key => ⟨cert, key⟩
  | some cert, none => ⟨cert, deriveHubUserCertKeyFilePath cert none⟩
  | none, some key => ⟨deriveHubUserCertFilePathFromKey key, key⟩
  | none, none => ⟨[], []⟩

/- ===================== sarif fetch dispatch ===================== -/

/-- Analysis record as sarif_download consumes it. -/
structure CSAnalysisInfo where
  id : String
  name : String
deriving DecidableEq

/-- One streaming SARIF fetch issued through the hub client: either the
single-analysis fetch or the two-identifier difference fetch. -/
inductive SarifFetchRequest
  | single (analysisId : String)
  | difference (analysisId baselineAnalysisId : String)
deriving DecidableEq

/-- Modelled from the spec: the request URL shapes of
fetchSarifAnalysisStream and fetchSarifAnalysisDifferenceStream (module
cs_hub_client, not among the given sources). Per spec sections 4.5 and 6
the single fetch is keyed by one analysis identifier and the difference
fetch encodes both the target and the baseline identifier in its URL. -/
def sarifRequestUrl : SarifFetchRequest → String
  | SarifFetchRequest.single analysisId =>
    "/analysis/" ++ analysisId ++ ".sarif"
  | SarifFetchRequest.difference analysisId baselineAnalysisId =>
    "/analysis/" ++ analysisId ++ ".sarif?base=" ++ baselineAnalysisId

/-- Embeds the fetch dispatch of downloadSarifResults (sarif_download
lines 486, 487 and 524 to 530): with a baseline analysis the difference
fetch is issued, otherwise the single-analysis fetch. -/
def downloadSarifRequest (analysisInfo : CSAnalysisInfo)
    (baseAnalysisInfo : Option CSAnalysisInfo) : SarifFetchRequest :=
  let analysisId := analysisInfo.id
  let baseAnalysisId := baseAnalysisInfo.map CSAnalysisInfo.id
  match baseAnalysisId with
  | some b => SarifFetchRequest.difference analysisId b
  | none => SarifFetchRequest.single analysisId

/- ===================== CLI front ends ===================== -/

/-- Mutable locals of the argument loop of main in cs_hub_client_exec. -/
structure HubExecParseState where
  errorMessage : Option String := none
  hubAddress : Option String := none
  targetUrlString : Option String := none
  cacertFilePath : Option String := none
  userName : Option String := none
  userPasswordFilePath : Option String := none
  userCertFilePath : Option String := none
  userKeyFilePath : Option String := none
deriving DecidableEq

/-- Tests whether an argument string starts with a dash, as the
expression arg.startsWith of the front ends does. -/
def startsWithDash (s : String) : Bool :=
  match s.data with
  | '-' :: _ => true
  | _ => false

/-- Option flags the cs_hub_client_exec front end recognizes. -/
def hubExecKnownFlags : List String :=
  ["--cacert", "-hubuser", "--hubuser", "-hubpwfile", "--hubpwfile",
   "-hubcert", "--hubcert", "-hubkey", "--hubkey"]

/-- Embeds the argument loop of main in cs_hub_client_exec (lines 28 to
72): the loop runs while no error message is set; a recognized flag
consumes the following argument as its value when one remains; any other
argument starting with a dash sets the unrecognized-option error; the
first two bare arguments are the hub address and the target URL; a third
sets the unexpected-argument error. -/
def hubExecParseLoop : HubExecParseState → List String → HubExecParseState
  | st, [] => st
  | st, arg :: rest =>
    if st.errorMessage.isSome then st
    else if arg = "--cacert" then
      match rest with
      | value :: rest2 =>
        hubExecParseLoop { st with cacertFilePath := some value } rest2
      | [] => st
    else if arg = "-hubuser" ∨ arg = "--hubuser" then
      match rest with
      | value :: rest2 =>
        hubExecParseLoop { st with userName := some value } rest2
      | [] => st
    else if arg = "-hubpwfile" ∨ arg = "--hubpwfile" then
      match rest with
      | value :: rest2 =>
        hubExecParseLoop { st with userPasswordFilePath := some value } rest2
      | [] => st
    else if arg = "-hubcert" ∨ arg = "--hubcert" then
      match rest with
      | value :: rest2 =>
        hubExecParseLoop { st with userCertFilePath := some value } rest2
      | [] => st
    else if arg = "-hubkey" ∨ arg = "--hubkey" then
      match rest with
      | value :: rest2 =>
        hubExecParseLoop { st with userKeyFilePath := some value } rest2
      | [] => st
    else if startsWithDash arg then
      let message := "Unrecognized option: \x27" ++ arg ++ "\x27."
      hubExecParseLoop { st with errorMessage := some message } rest
    else if st.hubAddress.isNone then
      hubExecParseLoop { st with hubAddress := some arg } rest
    else if st.targetUrlString.isNone then
      hubExecParseLoop { st with targetUrlString := some arg } rest
    else
      let message := "Unexpected argument: \x27" ++ arg ++ "\x27."
      hubExecParseLoop { st with errorMessage := some message } rest

/-- Embeds the argument validation of main in cs_hub_client_exec (lines
28 to 79): run the loop over the arguments after the program name, then
require the hub address and the target URL positionals. -/
def hubExecParse (argv : List String) : HubExecParseState :=
  let st0 := hubExecParseLoop {} (argv.drop 1)
  let st1 :=
    if st0.errorMessage.isNone && !(truthy st0.hubAddress) then
      { st0 with errorMessage := some "Missing Hub Address argument." }
    else st0
  if st1.errorMessage.isNone && !(truthy st1.targetUrlString) then
    { st1 with errorMessage := some "Missing URL argument." }
  else st1

/-- Settlement of the signIn promise as cs_hub_client_exec line 109
observes it: resolution with an optional rejection message, or
rejection. -/
inductive HubExecSignInOutcome
  | resolved (message : Option String)
  | rejected (message : String)
deriving DecidableEq

/-- Settlement of the fetch promise as cs_hub_client_exec line 114
observes it. -/
inductive HubExecFetchOutcome
  | resolved
  | rejected (message : String)
deriving DecidableEq

/-- Observable result of one CLI front-end run: the exit status passed to
onExit, the lines written to the error stream, and how many network
operations (sign-in or fetch attempts) were started. -/
structure CliExecResult where
  exitCode : Nat
  stderrLines : List String
  networkRequests : Nat
deriving DecidableEq

/-- Embeds main of cs_hub_client_exec (lines 11 to 123): a parse error is
written to the error stream and exits with status 2 before any network
activity; a rejected sign-in reaches the error handler and exits with
status 1; the resolved sign-in message is tested with JS truthiness as
the source line 110 does, so a truthy (nonempty) message exits with
status 1 while an undefined or empty message proceeds to the fetch; a
rejected fetch exits with status 1; a resolved fetch exits with
status 0. -/
def hubClientExecMain (argv : List String)
    (signInOutcome : HubExecSignInOutcome)
    (fetchOutcome : HubExecFetchOutcome) : CliExecResult :=
  let st := hubExecParse argv
  match st.errorMessage with
  | some message => ⟨2, [message], 0⟩
  | none =>
    match signInOutcome with
    | HubExecSignInOutcome.rejected e => ⟨1, [e], 1⟩
    | HubExecSignInOutcome.resolved message =>
      if truthy message then
        ⟨1, ["Hub sign-in rejected: " ++ message.getD ""], 1⟩
      else
        match fetchOutcome with
        | HubExecFetchOutcome.rejected e => ⟨1, [e], 2⟩
        | HubExecFetchOutcome.resolved => ⟨0, [], 2⟩

/-- Mutable locals of the argument loop of main in http_client_exec. -/
structure HttpExecParseState where
  errorMessage : Option String := none
  targetUrlString : Option String := none
  cacertFilePath : Option String := none
deriving DecidableEq

/-- Embeds the argument loop of main in http_client_exec (lines 26 to
49). -/
def httpExecParseLoop : HttpExecParseState → List String → HttpExecParseState
  | st, [] => st
  | st, arg :: rest =>
    if st.errorMessage.isSome then st
    else if arg = "--cacert" then
      match rest with
      | value :: rest2 =>
        httpExecParseLoop { st with cacertFilePath := some value } rest2
      | [] => st
    else if startsWithDash arg then
      let message := "Unrecognized option: \x27" ++ arg ++ "\x27."
      httpExecParseLoop { st with errorMessage := some message } rest
    else if st.targetUrlString.isNone then
      httpExecParseLoop { st with targetUrlString := some arg } rest
    else
      let message := "Unexpected argument: \x27" ++ arg ++ "\x27."
      httpExecParseLoop { st with errorMessage := some message } rest

/-- Embeds the argument validation of main in http_client_exec (lines 26
to 54). -/
def httpExecParse (argv : List String) : HttpExecParseState :=
  let st0 := httpExecParseLoop {} (argv.drop 1)
  if st0.errorMessage.isNone && !(truthy st0.targetUrlString) then
    { st0 with errorMessage := some "Missing URL argument." }
  else st0

/-- Outcome of the trusted-certificate file read in http_client_exec. -/
inductive ReadFileOutcome
  | ok
  | err (message : String)
deriving DecidableEq

/-- Settlement of the request promise in http_client_exec line 74. -/
inductive HttpRequestOutcome
  | resolved
  | rejected (message : String)
deriving DecidableEq

/-- Embeds main of http_client_exec (lines 14 to 107): a parse error is
written to the error stream and exits with status 2 before any request; a
failed certificate-file read exits with status 1 before any request; a
rejected request exits with status 1; a resolved request exits with
status 0. -/
def httpClientExecMain (argv : List String)
    (readFileOutcome : ReadFileOutcome)
    (requestOutcome : HttpRequestOutcome) : CliExecResult :=
  let st := httpExecParse argv
  match st.errorMessage with
  | some message => ⟨2, [message], 0⟩
  | none =>
    let doRequest : CliExecResult :=
      match requestOutcome with
      | HttpRequestOutcome.resolved =>
        ⟨0, ["start request...", "read response..."], 1⟩
      | HttpRequestOutcome.rejected e => ⟨1, ["start request...", e], 1⟩
    if truthy st.cacertFilePath then
      match readFileOutcome with
      | ReadFileOutcome.err message => ⟨1, [message], 0⟩
      | ReadFileOutcome.ok => doRequest
    else doRequest

/- ===================== theorems ===================== -/

/-- Helper: a list suffix no longer than the right summand of an append is
a suffix of the append exactly when it is a suffix of that summand. -/
theorem suffix_append_of_le (l₁ l₂ l₃ : List Char) (h : l₁.length ≤ l₃.length) :
    l₁ <:+ l₂ ++ l₃ ↔ l₁ <:+ l₃ := by
  constructor
  · intro hs
    rw [List.suffix_iff_eq_drop] at hs ⊢
    rw [List.length_append] at hs
    have harith : l₂.length + l₃.length - l₁.length
        = l₂.length + (l₃.length - l₁.length) := by omega
    rw [harith, List.drop_append] at hs
    exact hs
  · intro hs
    exact hs.trans (List.suffix_append l₂ l₃)

/-- Helper: boolean form of suffix_append_of_le for the isSuffixOf tests
the sources perform. -/
theorem isSuffixOf_append_eq (l₁ l₂ l₃ : List Char) (h : l₁.length ≤ l₃.length) :
    l₁.isSuffixOf (l₂ ++ l₃) = l₁.isSuffixOf l₃ := by
  by_cases hs : l₁ <:+ l₃
  · have h1 : l₁.isSuffixOf l₃ = true := by
      rw [List.isSuffixOf_iff_suffix]; exact hs
    have h2 : l₁.isSuffixOf (l₂ ++ l₃) = true := by
      rw [List.isSuffixOf_iff_suffix]
      exact (suffix_append_of_le l₁ l₂ l₃ h).mpr hs
    rw [h1, h2]
  · have h1 : l₁.isSuffixOf l₃ = false := by
      rw [Bool.eq_false_iff]
      intro hx
      rw [List.isSuffixOf_iff_suffix] at hx
      exact hs hx
    have h2 : l₁.isSuffixOf (l₂ ++ l₃) = false := by
      rw [Bool.eq_false_iff]
      intro hx
      rw [List.isSuffixOf_iff_suffix] at hx
      exact hs ((suffix_append_of_le l₁ l₂ l₃ h).mp hx)
    rw [h1, h2]

/-- Helper: taking everything except a suffix of an append recovers the
left summand. -/
theorem take_length_sub_append (stem suf : List Char) :
    (stem ++ suf).take ((stem ++ suf).length - suf.length) = stem := by
  rw [List.length_append, Nat.add_sub_cancel]
  rw [List.take_append_of_le_length (Nat.le_refl _), List.take_length]

/-- Helper: the password storage key always starts with a nonempty literal
prefix, so it is never the empty string. -/
theorem passwordStorageKeyOf_ne_empty (a : CSHubAddress) (u : String) :
    passwordStorageKeyOf a u ≠ "" := by
  intro h
  have hl : (passwordStorageKeyOf a u).length = 0 := by rw [h]; rfl
  rw [passwordStorageKeyOf, String.length_append] at hl
  have hc : ("codesonar:hubpasswd::" : String).length = 21 := rfl
  omega

/-- Helper for C10: collecting chunks with a bound m, starting from an
output length n already consumed, yields the take of the remaining budget. -/
theorem collectChunks_flatten_take (m : Nat) :
    ∀ (chunks : List (List Char)) (n : Nat), n ≤ m →
      (collectChunks chunks (some m) n).flatten = chunks.flatten.take (m - n) := by
  intro chunks
  induction chunks with
  | nil => intro n hn; simp [collectChunks]
  | cons chunk rest ih =>
    intro n hn
    by_cases h1 : m ≤ n
    · have hnm : n = m := Nat.le_antisymm hn h1
      subst hnm
      simp only [collectChunks, pushChunkOf, if_pos h1]
      rw [ih n (Nat.le_refl n)]
      simp
    · have hlt : n < m := Nat.lt_of_not_le h1
      by_cases h2 : chunk.length + n < m
      · simp only [collectChunks, pushChunkOf, if_neg h1, if_pos h2]
        by_cases h3 : chunk.isEmpty
        · have hc : chunk = [] := List.isEmpty_iff.mp h3
          subst hc
          simp only [List.isEmpty_nil, if_true]
          rw [ih n hn]
          simp
        · rw [if_neg h3]
          have hle : n + chunk.length ≤ m := by omega
          rw [List.flatten_cons, ih (n + chunk.length) hle]
          rw [List.flatten_cons, List.take_append_eq_append_take]
          rw [List.take_of_length_le (by omega : chunk.length ≤ m - n)]
          congr 1
          congr 1
          omega
      · simp only [collectChunks, pushChunkOf, if_neg h1, if_neg h2]
        have hlen : (chunk.take (m - n)).length = m - n := by
          rw [List.length_take]
          omega
        have hne : ¬((chunk.take (m - n)).isEmpty = true) := by
          intro h
          have hc := List.isEmpty_iff.mp h
          rw [hc] at hlen
          simp at hlen
          omega
        rw [if_neg hne]
        rw [List.flatten_cons, hlen]
        have hnm : n + (m - n) = m := by omega
        rw [hnm, ih m (Nat.le_refl m)]
        simp only [Nat.sub_self, List.take_zero, List.append_nil]
        rw [List.flatten_cons, List.take_append_eq_append_take]
        have h0 : m - n - chunk.length = 0 := by omega
        rw [h0]
        simp

/-- C10: for every stream of string chunks and every defined maximum
length, readTextStream resolves with the concatenation of the chunks
truncated at the maximum-length boundary, hence a text of length at most
that bound; chunks arriving after the bound was reached are discarded. -/
theorem readTextStreamTruncation (chunks : List (List Char)) (m : Nat) :
    readTextStream chunks (some m) = chunks.flatten.take m
    ∧ (readTextStream chunks (some m)).length ≤ m := by
  have h := collectChunks_flatten_take m chunks 0 (Nat.zero_le m)
  rw [Nat.sub_zero] at h
  refine ⟨by rw [readTextStream, h], ?_⟩
  rw [readTextStream, h, List.length_take]
  exact Nat.min_le_left _ _

/-- C9: evaluation at the failing input. The regular expression of
replaceInvalidFileNameChars is written without a character class, so it
matches only the two sequences of its alternation: a lone slash is left
in place, although the claim (and the sanitizing purpose the doc comment
of the function states) requires every such character replaced. The last
two conjuncts document the behavior the regular expression does have. -/
theorem replaceInvalidFileNameCharsSlashBug :
    replaceInvalidFileNameChars "a/b" "_" = "a/b"
    ∧ '/' ∈ (replaceInvalidFileNameChars "a/b" "_").data
    ∧ replaceInvalidFileNameChars "a/?%%:b" "_" = "a_b"
    ∧ replaceInvalidFileNameChars "x\"<>y" "_" = "x_y" := by decide

/-- C8: evaluation at the failing input. The template literal of
formatUserHubAddress writes its brace group as {$...} rather than the
interpolation form, so the hostname is literal text that never varies:
two hubs differing only in hostname yield the same password storage key,
and the hostname does not occur in the formatted string. -/
theorem formatUserHubAddressHostnameBug :
    passwordStorageKeyOf ⟨none, "alpha", none⟩ "u"
      = passwordStorageKeyOf ⟨none, "beta", none⟩ "u"
    ∧ ¬ ("alpha".data <:+: (formatUserHubAddress ⟨none, "alpha", none⟩ "u").data)
    ∧ formatUserHubAddress ⟨none, "alpha", none⟩ "u"
      = "u@\x7b$hubAddress.hostname\x7d" := by decide

/-- C2: when the hub declines the supplied credentials the sign-in promise
resolves normally with a result carrying the rejection, whereas a
transport failure rejects the promise; a caller distinguishes the two by
whether the promise resolved. -/
theorem signInRejectionVsTransportFailure (m : String) :
    signInResolvedMessage HubSignInOutcome.forbidden
      = Except.ok (some "Access forbidden")
    ∧ (signInResolvedMessage (HubSignInOutcome.connectError m)).isOk = false
    ∧ (∀ outcome : HubSignInOutcome,
        ((signInResolvedMessage outcome).isOk = false ↔
          (∃ e, outcome = HubSignInOutcome.connectError e)
          ∨ (∃ e, outcome = HubSignInOutcome.resolutionError e))) := by
  refine ⟨rfl, rfl, ?_⟩
  intro outcome
  cases outcome <;> simp [signInResolvedMessage, Except.isOk, Except.toBool]

/-- C3: a cancelled interactive password prompt rejects the provider
promise with the cancellation error; the sign-in block then fails with an
error carrying that cancellation to the caller; and no credential is ever
stored during the whole attempt. -/
theorem interactiveCancelPropagatesNoStore (key username address : String) :
    (interactivePasswordProvider key username address none none).1
      = Except.error "User cancelled password input."
    ∧ (∀ e ∈ (interactivePasswordProvider key username address none none).2,
        ∀ k v, e ≠ SecretEffect.store k v)
    ∧ (executeSignInBlock
        (HubSignInOutcome.resolutionError "User cancelled password input.")
        (some key)).1
      = Except.error "CodeSonar hub sign-in error: User cancelled password input."
    ∧ (∀ e ∈ (executeSignInBlock
        (HubSignInOutcome.resolutionError "User cancelled password input.")
        (some key)).2, ∀ k v, e ≠ SecretEffect.store k v) := by
  refine ⟨rfl, ?_, rfl, ?_⟩
  · intro e he k v
    simp [interactivePasswordProvider] at he
    rcases he with h | h <;> subst h <;> simp
  · intro e he k v
    simp [executeSignInBlock, signInResolvedBool, signInResolvedMessage] at he
    subst he
    simp
/-- Helper: a truthy optional string is present. -/
theorem truthy_isSome {o : Option String} (h : truthy o = true) :
    o.isSome = true := by
  cases o <;> simp [truthy] at h ⊢

/-- Helper: exhaustive characterization of the option-filling block of
executeCodeSonarSarifDownload across the credential branches. -/
theorem configureCases (resolvePath : String → String) (cfg : SarifDownloadConfig) :
    (truthy cfg.hubUserCertFilePath = true →
      (configureHubClientOptions resolvePath cfg).1.hubcert.isSome = true
      ∧ (configureHubClientOptions resolvePath cfg).1.hubkey.isSome = true
      ∧ (configureHubClientOptions resolvePath cfg).1.hubpwfile = none
      ∧ (configureHubClientOptions resolvePath cfg).1.hubpasswd = none
      ∧ (configureHubClientOptions resolvePath cfg).2 = [])
    ∧ (truthy cfg.hubUserCertFilePath = false →
       truthy cfg.hubUserPasswordFilePath = true →
      (configureHubClientOptions resolvePath cfg).1.hubpwfile.isSome = true
      ∧ (configureHubClientOptions resolvePath cfg).1.hubcert = none
      ∧ (configureHubClientOptions resolvePath cfg).1.hubkey = none
      ∧ (configureHubClientOptions resolvePath cfg).1.hubpasswd = none)
    ∧ ((configureHubClientOptions resolvePath cfg).1.hubpasswd.isSome = true ↔
       (truthy cfg.hubUserCertFilePath = false
        ∧ truthy cfg.hubUserPasswordFilePath = false
        ∧ truthy cfg.hubAddressString = true
        ∧ truthy cfg.hubUserName = true))
    ∧ (∀ e ∈ (configureHubClientOptions resolvePath cfg).2,
        ∃ k, e = SecretEffect.delete k)
    ∧ ((configureHubClientOptions resolvePath cfg).1.hubpasswd.isSome = true →
        (configureHubClientOptions resolvePath cfg).2 = []) := by
  have hkey : ∀ (a : CSHubAddress) (u : String),
      truthy (some (passwordStorageKeyOf a u)) = true := by
    intro a u
    simp [truthy, passwordStorageKeyOf_ne_empty a u]
  by_cases hca : truthy cfg.hubCAFilePath <;>
  by_cases hu : truthy cfg.hubUserName <;>
  by_cases hc : truthy cfg.hubUserCertFilePath <;>
  by_cases hp : truthy cfg.hubUserPasswordFilePath <;>
  by_cases ha : truthy cfg.hubAddressString <;>
    simp [configureHubClientOptions, hca, hu, hc, hp, ha, hkey, truthy_isSome]

/-- C1: exactly one credential scheme is honored per configuration, with
precedence client certificate over password file over interactive
password: with a certificate path the certificate pair is installed and
neither the password file option nor the interactive provider is set (and
the password-file branch effect does not run); with no certificate but a
password file, only the password file option is set; the interactive
provider is installed exactly when neither of the other two is configured
and a hub address and user name are present. -/
theorem credentialSchemePrecedence (resolvePath : String → String)
    (cfg : SarifDownloadConfig) :
    (truthy cfg.hubUserCertFilePath = true →
      (configuredOptions resolvePath cfg).hubcert.isSome = true
      ∧ (configuredOptions resolvePath cfg).hubkey.isSome = true
      ∧ (configuredOptions resolvePath cfg).hubpwfile = none
      ∧ (configuredOptions resolvePath cfg).hubpasswd = none
      ∧ configureEffects resolvePath cfg = [])
    ∧ (truthy cfg.hubUserCertFilePath = false →
       truthy cfg.hubUserPasswordFilePath = true →
      (configuredOptions resolvePath cfg).hubpwfile.isSome = true
      ∧ (configuredOptions resolvePath cfg).hubcert = none
      ∧ (configuredOptions resolvePath cfg).hubkey = none
      ∧ (configuredOptions resolvePath cfg).hubpasswd = none)
    ∧ ((configuredOptions resolvePath cfg).hubpasswd.isSome = true ↔
       (truthy cfg.hubUserCertFilePath = false
        ∧ truthy cfg.hubUserPasswordFilePath = false
        ∧ truthy cfg.hubAddressString = true
        ∧ truthy cfg.hubUserName = true)) := by
  have h := configureCases resolvePath cfg
  exact ⟨h.1, h.2.1, h.2.2.1⟩

/-- C4: configuring a session resolves no credential: the configuration
trace contains at most the password-file-branch delete, and is empty
whenever the interactive provider is installed; the secret-store query
and the user prompt happen only when the provider itself is invoked,
which is what a sign-in attempt does. -/
theorem interactiveResolutionIsLazy (resolvePath : String → String)
    (cfg : SarifDownloadConfig) :
    ((configuredOptions resolvePath cfg).hubpasswd.isSome = true →
      configureEffects resolvePath cfg = [])
    ∧ (∀ e ∈ configureEffects resolvePath cfg, ∃ k, e = SecretEffect.delete k)
    ∧ (∀ key username address storedPassword userInput,
        ((interactivePasswordProvider key username address storedPassword
          userInput).2).head? = some (SecretEffect.get key))
    ∧ (∀ key username address userInput,
        SecretEffect.prompt (interactivePromptText username address)
          ∈ (interactivePasswordProvider key username address none
              userInput).2) := by
  have h := configureCases resolvePath cfg
  refine ⟨h.2.2.2.2, h.2.2.2.1, ?_, ?_⟩
  · intro key username address storedPassword userInput
    cases storedPassword <;> cases userInput <;>
      simp [interactivePasswordProvider]
  · intro key username address userInput
    cases userInput <;> simp [interactivePasswordProvider]

/-- C5: key-path derivation from a certificate path with no explicit key
path replaces a .cert suffix by .key, replaces a .cert.pem suffix by
.key.pem, and appends .key to any other path; and symmetrically, when
only one member of the certificate and key pair is given, the other is
derived from it by the corresponding suffix substitution. -/
theorem certKeyPathDerivation (stem : List Char) :
    deriveHubUserCertKeyFilePath (stem ++ ".cert".data) none
      = stem ++ ".key".data
    ∧ deriveHubUserCertKeyFilePath (stem ++ ".cert.pem".data) none
      = stem ++ ".key.pem".data
    ∧ (∀ p : List Char, (".cert".data).isSuffixOf p = false →
        (".cert.pem".data).isSuffixOf p = false →
        deriveHubUserCertKeyFilePath p none = p ++ ".key".data)
    ∧ (csHubUserKeyOf (some (stem ++ ".cert".data)) none).keyFilePath
      = stem ++ ".key".data
    ∧ (csHubUserKeyOf none (some (stem ++ ".key".data))).certFilePath
      = stem ++ ".cert".data
    ∧ (csHubUserKeyOf none (some (stem ++ ".key.pem".data))).certFilePath
      = stem ++ ".cert.pem".data := by
  have a1 : (".cert".data).isSuffixOf (stem ++ ".cert".data) = true := by
    rw [isSuffixOf_append_eq _ _ _ (Nat.le_refl _)]; decide
  have a2 : (".cert".data).isSuffixOf (stem ++ ".cert.pem".data) = false := by
    rw [isSuffixOf_append_eq _ _ _ (by decide)]; decide
  have a3 : (".cert.pem".data).isSuffixOf (stem ++ ".cert.pem".data) = true := by
    rw [isSuffixOf_append_eq _ _ _ (Nat.le_refl _)]; decide
  have b1 : (".key".data).isSuffixOf (stem ++ ".key".data) = true := by
    rw [isSuffixOf_append_eq _ _ _ (Nat.le_refl _)]; decide
  have b2 : (".key".data).isSuffixOf (stem ++ ".key.pem".data) = false := by
    rw [isSuffixOf_append_eq _ _ _ (by decide)]; decide
  have b3 : (".key.pem".data).isSuffixOf (stem ++ ".key.pem".data) = true := by
    rw [isSuffixOf_append_eq _ _ _ (Nat.le_refl _)]; decide
  have hcert : deriveHubUserCertKeyFilePath (stem ++ ".cert".data) none
      = stem ++ ".key".data := by
    simp only [deriveHubUserCertKeyFilePath, a1, if_true]
    rw [take_length_sub_append]
  have hcertpem : deriveHubUserCertKeyFilePath (stem ++ ".cert.pem".data) none
      = stem ++ ".key.pem".data := by
    simp only [deriveHubUserCertKeyFilePath, a2, a3, if_true, Bool.false_eq_true,
      if_false]
    rw [take_length_sub_append]
  refine ⟨hcert, hcertpem, ?_, ?_, ?_, ?_⟩
  · intro p hp1 hp2
    simp only [deriveHubUserCertKeyFilePath, hp1, hp2, Bool.false_eq_true,
      if_false]
  · simp only [csHubUserKeyOf, hcert]
  · simp only [csHubUserKeyOf, deriveHubUserCertFilePathFromKey, b1, if_true]
    rw [take_length_sub_append]
  · simp only [csHubUserKeyOf, deriveHubUserCertFilePathFromKey, b2, b3,
      if_true, Bool.false_eq_true, if_false]
    rw [take_length_sub_append]

/-- C6: per download exactly one fetch is issued: the two-identifier
difference fetch when a baseline analysis is supplied, the single-analysis
fetch otherwise; the difference request URL encodes both identifiers and
differs from the single-analysis URL. -/
theorem sarifDownloadDispatch (analysisInfo : CSAnalysisInfo)
    (baseAnalysisInfo : Option CSAnalysisInfo) :
    (∀ b, baseAnalysisInfo = some b →
      downloadSarifRequest analysisInfo baseAnalysisInfo
        = SarifFetchRequest.difference analysisInfo.id b.id)
    ∧ (baseAnalysisInfo = none →
      downloadSarifRequest analysisInfo baseAnalysisInfo
        = SarifFetchRequest.single analysisInfo.id)
    ∧ (∀ a b : String,
        sarifRequestUrl (SarifFetchRequest.difference a b)
          ≠ sarifRequestUrl (SarifFetchRequest.single a))
    ∧ (∀ a b : String,
        a.data <:+: (sarifRequestUrl (SarifFetchRequest.difference a b)).data
        ∧ b.data <:+: (sarifRequestUrl (SarifFetchRequest.difference a b)).data) := by
  refine ⟨?_, ?_, ?_, ?_⟩
  · intro b hb
    subst hb
    simp [downloadSarifRequest]
  · intro hb
    subst hb
    simp [downloadSarifRequest]
  · intro a b h
    have hl := congrArg String.length h
    simp only [sarifRequestUrl, String.length_append] at hl
    have h1 : (".sarif?base=" : String).length = 12 := rfl
    have h2 : (".sarif" : String).length = 6 := rfl
    omega
  · intro a b
    constructor
    · exact ⟨"/analysis/".data, (".sarif?base=" ++ b).data,
        by simp [sarifRequestUrl, List.append_assoc]⟩
    · exact ⟨("/analysis/" ++ a ++ ".sarif?base=").data, [],
        by simp [sarifRequestUrl, List.append_assoc]⟩

/-- Helper: once the error message is set, the argument loop of
cs_hub_client_exec changes nothing further. -/
theorem hubExecParseLoop_stops (st : HubExecParseState)
    (h : st.errorMessage.isSome = true) :
    ∀ args, hubExecParseLoop st args = st := by
  intro args
  cases args with
  | nil => rfl
  | cons a r => rw [hubExecParseLoop.eq_def]; simp [h]

/-- Helper: once the error message is set, the argument loop of
http_client_exec changes nothing further. -/
theorem httpExecParseLoop_stops (st : HttpExecParseState)
    (h : st.errorMessage.isSome = true) :
    ∀ args, httpExecParseLoop st args = st := by
  intro args
  cases args with
  | nil => rfl
  | cons a r => rw [httpExecParseLoop.eq_def]; simp [h]

/-- Helper: when cs_hub_client_exec parses its arguments without error,
both required positionals were supplied (truthy), so a missing positional
always yields a parse error. -/
theorem hubExecParse_none_truthy (argv : List String)
    (h : (hubExecParse argv).errorMessage = none) :
    truthy (hubExecParse argv).hubAddress = true
    ∧ truthy (hubExecParse argv).targetUrlString = true := by
  simp only [hubExecParse] at h ⊢
  set st0 := hubExecParseLoop {} (argv.drop 1) with hst0
  by_cases c1 : (st0.errorMessage.isNone && !(truthy st0.hubAddress)) = true
  · rw [if_pos c1] at h ⊢
    simp at h
  · rw [if_neg c1] at h ⊢
    by_cases c2 : (st0.errorMessage.isNone && !(truthy st0.targetUrlString)) = true
    · rw [if_pos c2] at h
      simp at h
    · rw [if_neg c2] at h ⊢
      rw [h] at c1 c2
      simp at c1 c2
      exact ⟨c1, c2⟩

/-- Helper: when http_client_exec parses its arguments without error, the
required URL positional was supplied. -/
theorem httpExecParse_none_truthy (argv : List String)
    (h : (httpExecParse argv).errorMessage = none) :
    truthy (httpExecParse argv).targetUrlString = true := by
  simp only [httpExecParse] at h ⊢
  set st0 := httpExecParseLoop {} (argv.drop 1) with hst0
  by_cases c1 : (st0.errorMessage.isNone && !(truthy st0.targetUrlString)) = true
  · rw [if_pos c1] at h
    simp at h
  · rw [if_neg c1] at h ⊢
    rw [h] at c1
    simp at c1
    exact c1

/-- C7: argument handling contract of both CLI front ends. An unrecognized
flag reached by the argument loop sets the unrecognized-option error; any
parse error (unrecognized flag, unexpected or missing positional) exits
with status 2 after writing the message to the error stream with no
network request started; error-free parses imply both positionals were
supplied, and the two concrete truncated argument vectors show the
missing-positional messages; a rejected sign-in, a sign-in resolution
carrying a truthy (nonempty) rejection message, a failed certificate read
or a rejected fetch exit with status 1 with the message on the error
stream; with a falsy resolved sign-in message (undefined or empty, which
the source line 110 treats as success) the fetch proceeds and a
successful fetch exits with status 0. -/
theorem cliFrontEndExitCodes (argv : List String) :
    (∀ (st : HubExecParseState) (arg : String) (rest : List String),
      st.errorMessage = none → startsWithDash arg = true →
      arg ∉ hubExecKnownFlags →
      (hubExecParseLoop st (arg :: rest)).errorMessage
        = some ("Unrecognized option: \x27" ++ arg ++ "\x27."))
    ∧ (∀ msg, (hubExecParse argv).errorMessage = some msg →
        ∀ s f, hubClientExecMain argv s f
          = ⟨2, [msg], 0⟩)
    ∧ ((hubExecParse argv).errorMessage = none →
        truthy (hubExecParse argv).hubAddress = true
        ∧ truthy (hubExecParse argv).targetUrlString = true)
    ∧ (hubExecParse ["prog"]).errorMessage
        = some "Missing Hub Address argument."
    ∧ (hubExecParse ["prog", "host:7340"]).errorMessage
        = some "Missing URL argument."
    ∧ ((hubExecParse argv).errorMessage = none →
        (∀ e f, hubClientExecMain argv (HubExecSignInOutcome.rejected e) f
          = ⟨1, [e], 1⟩)
        ∧ (∀ m f, m ≠ "" → hubClientExecMain argv
            (HubExecSignInOutcome.resolved (some m)) f
          = ⟨1, ["Hub sign-in rejected: " ++ m], 1⟩)
        ∧ (∀ message, truthy message = false →
            (∀ e, hubClientExecMain argv (HubExecSignInOutcome.resolved message)
              (HubExecFetchOutcome.rejected e) = ⟨1, [e], 2⟩)
            ∧ hubClientExecMain argv (HubExecSignInOutcome.resolved message)
                HubExecFetchOutcome.resolved = ⟨0, [], 2⟩))
    ∧ (∀ (st : HttpExecParseState) (arg : String) (rest : List String),
      st.errorMessage = none → startsWithDash arg = true →
      arg ≠ "--cacert" →
      (httpExecParseLoop st (arg :: rest)).errorMessage
        = some ("Unrecognized option: \x27" ++ arg ++ "\x27."))
    ∧ (∀ msg, (httpExecParse argv).errorMessage = some msg →
        ∀ rf rq, httpClientExecMain argv rf rq = ⟨2, [msg], 0⟩)
    ∧ (httpExecParse ["prog"]).errorMessage = some "Missing URL argument."
    ∧ ((httpExecParse argv).errorMessage = none →
        (truthy (httpExecParse argv).cacertFilePath = true →
          ∀ m rq, httpClientExecMain argv (ReadFileOutcome.err m) rq
            = ⟨1, [m], 0⟩)
        ∧ (∀ e, httpClientExecMain argv ReadFileOutcome.ok
            (HttpRequestOutcome.rejected e)
          = ⟨1, ["start request...", e], 1⟩)
        ∧ httpClientExecMain argv ReadFileOutcome.ok HttpRequestOutcome.resolved
          = ⟨0, ["start request...", "read response..."], 1⟩) := by
  refine ⟨?_, ?_, hubExecParse_none_truthy argv, by decide, by decide,
    ?_, ?_, ?_, by decide, ?_⟩
  · intro st arg rest h hd hmem
    simp only [hubExecKnownFlags, List.mem_cons, List.not_mem_nil, or_false,
      not_or] at hmem
    obtain ⟨h1, h2, h3, h4, h5, h6, h7, h8, h9⟩ := hmem
    rw [hubExecParseLoop.eq_def]
    simp only [h, Option.isSome_none, Bool.false_eq_true, if_false,
      h1, h2, h3, h4, h5, h6, h7, h8, h9, hd, if_true, or_self, or_false,
      false_or, if_neg, ite_false, ite_true]
    have hstop := hubExecParseLoop_stops
      { st with
          errorMessage := some ("Unrecognized option: \x27" ++ arg ++ "\x27.") }
      (by simp) rest
    simp [hstop]
  · intro msg h s f
    simp [hubClientExecMain, h]
  · intro h
    refine ⟨?_, ?_, ?_⟩
    · intro e f
      simp [hubClientExecMain, h]
    · intro m f hm
      simp [hubClientExecMain, h, truthy, hm]
    · intro message hmsg
      refine ⟨?_, ?_⟩
      · intro e
        simp [hubClientExecMain, h, hmsg]
      · simp [hubClientExecMain, h, hmsg]
  · intro st arg rest h hd harg
    rw [httpExecParseLoop.eq_def]
    simp only [h, Option.isSome_none, Bool.false_eq_true, if_false,
      harg, hd, if_true, ite_false, ite_true]
    have hstop := httpExecParseLoop_stops
      { st with
          errorMessage := some ("Unrecognized option: \x27" ++ arg ++ "\x27.") }
      (by simp) rest
    simp [hstop]
  · intro msg h rf rq
    simp [httpClientExecMain, h]
  · intro h
    refine ⟨?_, ?_, ?_⟩
    · intro hca m rq
      simp [httpClientExecMain, h, hca]
    · intro e
      by_cases hca : truthy (httpExecParse argv).cacertFilePath <;>
        simp [httpClientExecMain, h, hca]
    · by_cases hca : truthy (httpExecParse argv).cacertFilePath <;>
        simp [httpClientExecMain, h, hca]
